import Mathlib

/-!
Verification development for the TimelineThinker repository.

The repository ships a React frontend (chat interface, input box, source
selector, upload panel, app shell) together with an axios API client; the
backend five-agent pipeline (Planner, Timeline Retrieval, Document
Retrieval, Alignment, Synthesizer) is described by the architecture
documents but its code is not among the source files.  Frontend behaviour
is embedded directly from the JSX sources; pipeline-level behaviour is
modelled from the specification where noted.
-/

namespace TimelineThinker

/-- A JSON scalar value, the payload values the API client sends. -/
inductive JsonVal where
  | jnum : Int → JsonVal
  | jstr : String → JsonVal
deriving DecidableEq, Repr

/-- Embeds `query` from the API client (services/api.js): builds the POST
body for the answering endpoint.  The body always carries `user_id` and
`question`; `source_id` is added only when the JavaScript guard
`if (sourceId)` is truthy, that is when the value is neither `null` nor
the number zero. -/
def queryPayload (question : String) (userId : Int) (sourceId : Option Int) :
    List (String × JsonVal) :=
  let base := [("user_id", JsonVal.jnum userId), ("question", JsonVal.jstr question)]
  match sourceId with
  | some sid => if sid ≠ 0 then base ++ [("source_id", JsonVal.jnum sid)] else base
  | none => base

/-- An event row as the data model describes it: user, source, modality
(timeline-eligible or document-eligible) and a calendar date. -/
structure Event where
  id : Nat
  userId : Int
  sourceId : Int
  modalityTimeline : Bool
  date : Nat
deriving DecidableEq, Repr

/-- Modelled from the spec: the candidate filter both retrieval agents
apply (same user, required modality, and — if a focus source is set —
additionally restricted to that source).  The agents themselves are
backend code absent from the repository sources. -/
def filterCandidates (userId : Int) (wantTimeline : Bool) (focus : Option Int)
    (events : List Event) : List Event :=
  events.filter (fun e =>
    e.userId == userId && e.modalityTimeline == wantTimeline &&
      (match focus with
       | some sid => e.sourceId == sid
       | none => true))

/-- A source as listed by the backend, the shape the source selector and
the app shell consume. -/
structure SourceInfo where
  id : Int
  title : String
  source_type : String
deriving DecidableEq, Repr

/-- A chat message as built by ChatInterface.jsx (the timestamp, a wall
clock value, is omitted; every other field the component sets is kept). -/
structure ChatMessage where
  role : String
  content : String
  isError : Bool
  context : Option String
  metaSourceTitle : Option String
deriving DecidableEq, Repr

/-- The response body of the answering endpoint as the chat component
reads it: the answer text and the optional `dates_used` array. -/
structure QueryResponse where
  answer : String
  dates_used : Option (List String)
deriving DecidableEq, Repr

/-- The chat-relevant React state: the message list of ChatInterface and
the highlighted dates the app shell keeps (fed by the onDatesUsed
callback). -/
structure ChatState where
  messages : List ChatMessage
  highlightedDates : List String
deriving DecidableEq, Repr

/-- Embeds the user-message construction at the top of handleSendMessage
in ChatInterface.jsx. -/
def mkUserMessage (userMessage : String) (selectedSource : Option SourceInfo) :
    ChatMessage :=
  { role := "user", content := userMessage, isError := false,
    context := selectedSource.map (fun s => "Source: " ++ s.title),
    metaSourceTitle := none }

/-- Embeds the error message the catch block of handleSendMessage appends:
a single assistant message with a fixed text and the isError flag. -/
def queryErrorMessage : ChatMessage :=
  { role := "assistant",
    content := "Sorry, I encountered an error while processing your question. Please try again.",
    isError := true, context := none, metaSourceTitle := none }

/-- Embeds handleSendMessage of ChatInterface.jsx as a state transition:
the user message is appended first; on a successful response an assistant
message with the answer is appended and the dates-used callback fires when
the response carries a `dates_used` field; on a failed request only the
fixed error message is appended and the highlighted dates are untouched. -/
def handleSendMessage (st : ChatState) (userMessage : String)
    (selectedSource : Option SourceInfo)
    (result : Except String QueryResponse) : ChatState :=
  let afterUser : ChatState :=
    { st with messages := st.messages ++ [mkUserMessage userMessage selectedSource] }
  match result with
  | .ok resp =>
      let assistantMsg : ChatMessage :=
        { role := "assistant", content := resp.answer, isError := false,
          context := none,
          metaSourceTitle := selectedSource.map (fun s => s.title) }
      { messages := afterUser.messages ++ [assistantMsg],
        highlightedDates :=
          match resp.dates_used with
          | some ds => ds
          | none => afterUser.highlightedDates }
  | .error _ =>
      { afterUser with messages := afterUser.messages ++ [queryErrorMessage] }

/-- The empty chat-relevant state, used to exercise handleSendMessage on
concrete inputs. -/
def chatState0 : ChatState := { messages := [], highlightedDates := [] }

/-- The JavaScript trim operation: whitespace is removed from both ends
of the string. -/
def trimString (s : String) : String :=
  String.mk
    (((s.data.dropWhile Char.isWhitespace).reverse.dropWhile Char.isWhitespace).reverse)

/-- Embeds handleSubmit of InputBox.jsx: the send callback receives the
trimmed input only when the trimmed input is nonempty and the box is not
disabled, and the input field is cleared right after a send; otherwise
nothing is sent and the field keeps its value. -/
def handleSubmit (input : String) (disabled : Bool) : Option String × String :=
  if trimString input ≠ "" ∧ disabled = false then (some (trimString input), "")
  else (none, input)

/-- Embeds handleKeyPress of InputBox.jsx: a plain Enter (without shift)
routes to handleSubmit; any other key leaves the state alone. -/
def handleKeyPress (key : String) (shiftKey : Bool) (input : String)
    (disabled : Bool) : Option String × String :=
  if key = "Enter" ∧ shiftKey = false then handleSubmit input disabled
  else (none, input)

/-- Embeds the reconciliation effect of App (part_000, lines 39 to 46):
when the selected source id is truthy and no loaded source carries it, the
selection is reset to null; in every other case the selection is kept. -/
def reconcileSelection (sources : List SourceInfo) (sel : Option Int) :
    Option Int :=
  match sel with
  | none => none
  | some sid =>
      if sid ≠ 0 ∧ ¬ (sources.any (fun s => s.id == sid)) then none
      else some sid

/-- Embeds the selection adjustment inside handleSourceDelete and
handleSessionSourceRemove of App: deleting the currently selected source
clears the selection, deleting any other source leaves it alone. -/
def selectionAfterDelete (sel : Option Int) (deletedId : Int) : Option Int :=
  if sel = some deletedId then none else sel

/-- The two ingestion endpoints the file-upload handler can call. -/
inductive IngestEndpoint where
  | audio
  | document
deriving DecidableEq, Repr

/-- The response body of a successful ingestion, as the upload panel reads
it to build its status message. -/
structure IngestResponse where
  title : String
  events_created : Nat
deriving DecidableEq, Repr

/-- The observable outcome of one file upload: which ingestion endpoints
were called, whether the upload-complete callback fired, and the status
message shown. -/
structure UploadOutcome where
  calls : List IngestEndpoint
  completeFired : Bool
  message : String
deriving DecidableEq, Repr

/-- The audio extensions handleFileUpload routes to audio ingestion. -/
def audioExtensions : List String := ["mp3", "m4a", "wav", "ogg"]

/-- The document extensions handleFileUpload routes to document
ingestion. -/
def documentExtensions : List String := ["pdf", "md", "txt"]

/-- Embeds the extension computation of handleFileUpload: the file name is
split on dots, the last segment is taken and lowercased (the whole name
when no dot occurs). -/
def fileExtension (name : String) : String :=
  (((name.splitOn ".").getLast?).getD "").toLower

/-- Embeds handleFileUpload of UploadPanel.jsx.  The file extension picks
at most one ingestion endpoint; an unsupported extension produces no call
and an unsupported-type message; the upload-complete callback fires only
after the chosen ingestion succeeded.  The fallible ingestion call is
passed in as a function from the chosen endpoint to its result. -/
def handleFileUpload (name : String)
    (ingest : IngestEndpoint → Except String IngestResponse) : UploadOutcome :=
  if audioExtensions.contains (fileExtension name) then
    match ingest .audio with
    | .ok r =>
        { calls := [.audio], completeFired := true,
          message := "✓ Audio \"" ++ r.title ++ "\" ingested! Created "
            ++ toString r.events_created ++ " events." }
    | .error e =>
        { calls := [.audio], completeFired := false,
          message := "❌ Upload failed: " ++ e }
  else if documentExtensions.contains (fileExtension name) then
    match ingest .document with
    | .ok r =>
        { calls := [.document], completeFired := true,
          message := "✓ Document \"" ++ r.title ++ "\" ingested! Created "
            ++ toString r.events_created ++ " events." }
    | .error e =>
        { calls := [.document], completeFired := false,
          message := "❌ Upload failed: " ++ e }
  else
    { calls := [], completeFired := false,
      message := "❌ Unsupported file type: " ++ fileExtension name }

/-- A timeline chunk as the pipeline returns it: event text, relevance
score, calendar date (dates are numbered days). -/
structure TimelineChunk where
  text : String
  relevance_score : ℚ
  date : Nat
deriving DecidableEq, Repr

/-- Modelled from the spec: the Synthesizer output field `datesUsed`, the
sorted deduplicated list of the dates of the timeline chunks actually
cited in the answer.  The Synthesizer itself is backend code absent from
the repository sources. -/
def datesUsedOf (cited : List TimelineChunk) : List Nat :=
  List.insertionSort (· ≤ ·) (cited.map (fun c => c.date)).dedup

/-- Modelled from the spec: the Synthesizer confidence, derived from the
similarity scores of the cited chunks and from whether the self-check
passed on the first attempt (a regeneration lowers it), clamped into the
unit interval.  The Synthesizer itself is backend code absent from the
repository sources. -/
def confidenceOf (cited : List TimelineChunk) (firstCheckPassed : Bool) : ℚ :=
  let scores := cited.map (fun c => c.relevance_score)
  let base := if scores.length = 0 then 0 else scores.sum / scores.length
  let adjusted := if firstCheckPassed then base else base * (4 / 5)
  max 0 (min 1 adjusted)

/-- The observable trace of one Synthesizer run: the accepted answer, how
many generative draft calls were issued, and whether the first self-check
passed. -/
structure SynthTrace where
  answer : String
  draftCalls : Nat
  firstCheckPassed : Bool
deriving DecidableEq, Repr

/-- Modelled from the spec: the Synthesizer loop — draft, self-check,
regenerate at most once more when the first self-check fails, then accept
the second draft regardless of the second verdict.  `draft n` is the
generative call for attempt `n`; `selfCheck` is the checking pass.  The
Synthesizer itself is backend code absent from the repository sources. -/
def synthesize (draft : Nat → String) (selfCheck : String → Bool) : SynthTrace :=
  let d1 := draft 0
  if selfCheck d1 then
    { answer := d1, draftCalls := 1, firstCheckPassed := true }
  else
    let d2 := draft 1
    { answer := d2, draftCalls := 2, firstCheckPassed := false }

/-- The residue class of Tuesdays: days are numbered integers, the day of
week of day d is d mod 7, and Tuesday is residue 2. -/
def tuesdayResidue : Int := 2

/-- Modelled from the spec: the Planner resolution of "yesterday" against
the injected current date — exactly the previous day.  The Planner itself
is backend code absent from the repository sources. -/
def resolveYesterday (today : Int) : Int := today - 1

/-- Modelled from the spec: the Planner resolution of "last Tuesday" — the
most recent Tuesday strictly before the injected current date, by calendar
arithmetic on day numbers.  The Planner itself is backend code absent from
the repository sources. -/
def resolveLastTuesday (today : Int) : Int :=
  if (today - tuesdayResidue) % 7 = 0 then today - 7
  else today - (today - tuesdayResidue) % 7

/-- Claim C1: a question submitted while a focus source is selected (a
loaded source, whose backend id is nonzero) sends a query request whose
body carries that source id, and the spec-modelled candidate filter of
both retrieval agents then keeps only events of that source; a question
submitted with no focus source sends a request without any source field,
and the filter restricts by user and modality only. -/
theorem claim_C1_focus_source_restriction (question : String) (userId : Int)
    (sid : Int) (h : sid ≠ 0) (wantTimeline : Bool) (events : List Event) :
    List.lookup "source_id" (queryPayload question userId (some sid))
        = some (JsonVal.jnum sid)
    ∧ List.lookup "source_id" (queryPayload question userId none) = none
    ∧ (∀ e ∈ filterCandidates userId wantTimeline (some sid) events,
        e.sourceId = sid)
    ∧ filterCandidates userId wantTimeline none events
        = events.filter
            (fun e => e.userId == userId && e.modalityTimeline == wantTimeline) := by
  refine ⟨by simp [queryPayload, h, List.lookup], by simp [queryPayload, List.lookup], ?_, ?_⟩
  · intro e he
    have hmem := List.mem_filter.mp he
    have hcond := hmem.2
    simp only [Bool.and_eq_true, beq_iff_eq] at hcond
    exact hcond.2
  · unfold filterCandidates
    apply List.filter_congr
    intro e _
    simp

/-- Witness for claim C1 at a concrete selected source (id 3) and a
concrete event list. -/
theorem claim_C1_focus_source_restriction_witness :
    (3 : Int) ≠ 0
    ∧ (List.lookup "source_id" (queryPayload "q" 1 (some 3))
          = some (JsonVal.jnum 3)
        ∧ List.lookup "source_id" (queryPayload "q" 1 none) = none
        ∧ (∀ e ∈ filterCandidates 1 true (some 3)
              [⟨10, 1, 3, true, 20⟩, ⟨11, 1, 4, true, 21⟩], e.sourceId = 3)
        ∧ filterCandidates 1 true none
              [⟨10, 1, 3, true, 20⟩, ⟨11, 1, 4, true, 21⟩]
            = List.filter
                (fun e => e.userId == 1 && e.modalityTimeline == true)
                [⟨10, 1, 3, true, 20⟩, ⟨11, 1, 4, true, 21⟩]) :=
  ⟨by decide,
    claim_C1_focus_source_restriction "q" 1 3 (by decide) true
      [⟨10, 1, 3, true, 20⟩, ⟨11, 1, 4, true, 21⟩]⟩

/-- Claim C2 counterexample: the query request body built by the API
client holds only the fields user_id, question and (when a source is
selected) source_id — no current-date field of any spelling is part of
the call input, so the current date is not supplied explicitly. -/
theorem claim_C2_no_date_in_payload :
    (queryPayload "What happened yesterday?" 1 (some 3)).map Prod.fst
        = ["user_id", "question", "source_id"]
    ∧ (queryPayload "What happened yesterday?" 1 none).map Prod.fst
        = ["user_id", "question"]
    ∧ "current_date" ∉ (queryPayload "What happened yesterday?" 1 (some 3)).map Prod.fst
    ∧ "currentDate" ∉ (queryPayload "What happened yesterday?" 1 (some 3)).map Prod.fst
    ∧ "date" ∉ (queryPayload "What happened yesterday?" 1 (some 3)).map Prod.fst := by
  decide

/-- Claim C2 amended: every query request body carries exactly the user
id and the question, plus the source id when a focus source is selected;
no other field — in particular no current date — is ever part of the
request. -/
theorem claim_C2_payload_fields (question : String) (userId : Int)
    (sourceId : Option Int) :
    (queryPayload question userId sourceId).map Prod.fst = ["user_id", "question"]
    ∨ (queryPayload question userId sourceId).map Prod.fst
        = ["user_id", "question", "source_id"] := by
  cases sourceId with
  | none => exact Or.inl rfl
  | some sid =>
      by_cases h : sid = 0
      · exact Or.inl (by simp [queryPayload, h])
      · exact Or.inr (by simp [queryPayload, h])

/-- Claim C3 counterexample: the chat state after a failed query is the
same whatever the failure was — two different failing stages produce the
identical single error message, whose text is a fixed sentence — so the
reported error does not identify the failing stage. -/
theorem claim_C3_error_not_stage_identifying :
    handleSendMessage chatState0 "What happened?" none
        (Except.error "Planning failed")
      = handleSendMessage chatState0 "What happened?" none
        (Except.error "Synthesis failed")
    ∧ (handleSendMessage chatState0 "What happened?" none
        (Except.error "Planning failed")).messages.getLast?
      = some queryErrorMessage
    ∧ queryErrorMessage.content
      = "Sorry, I encountered an error while processing your question. Please try again." := by
  refine ⟨rfl, rfl, rfl⟩

/-- Claim C3 amended: a query that ends in a fatal failure delivers no
partial answer: exactly one error message is appended (with a fixed
generic text that does not identify the failing stage), it is flagged as
an error, and no answer content, dates-used list or chunk citation from
the failed query is surfaced — the highlighted dates are untouched. -/
theorem claim_C3_fatal_failure_single_error (st : ChatState) (q : String)
    (src : Option SourceInfo) (e : String) :
    (handleSendMessage st q src (Except.error e)).messages
        = st.messages ++ [mkUserMessage q src, queryErrorMessage]
    ∧ (handleSendMessage st q src (Except.error e)).highlightedDates
        = st.highlightedDates
    ∧ queryErrorMessage.isError = true
    ∧ (mkUserMessage q src).isError = false
    ∧ queryErrorMessage.metaSourceTitle = none := by
  refine ⟨?_, rfl, rfl, rfl, rfl⟩
  simp [handleSendMessage]

/-- Claim C4: the datesUsed list of a successfully answered query is
sorted ascending, has no duplicates, and every entry is a date of one of
the cited timeline chunks. -/
theorem claim_C4_datesUsed_sorted_dedup_subset (cited : List TimelineChunk) :
    List.Sorted (· ≤ ·) (datesUsedOf cited)
    ∧ (datesUsedOf cited).Nodup
    ∧ ∀ d ∈ datesUsedOf cited, d ∈ cited.map (fun c => c.date) := by
  refine ⟨List.sorted_insertionSort _ _,
    (List.perm_insertionSort _ _).symm.nodup (List.nodup_dedup _), ?_⟩
  intro d hd
  exact List.mem_dedup.mp ((List.perm_insertionSort _ _).mem_iff.mp hd)

/-- Claim C5: the confidence of a successfully answered query always lies
in the closed unit interval. -/
theorem claim_C5_confidence_unit_interval (cited : List TimelineChunk)
    (firstCheckPassed : Bool) :
    0 ≤ confidenceOf cited firstCheckPassed
    ∧ confidenceOf cited firstCheckPassed ≤ 1 := by
  unfold confidenceOf
  exact ⟨le_max_left 0 _, max_le (by norm_num) (min_le_left 1 _)⟩

/-- Claim C6: the Synthesizer issues at most two generative draft calls;
when the first self-check passes it issues exactly one and accepts the
first draft, when the first self-check fails it issues exactly two and
accepts the second draft whatever any further verdict would be — a third
draft call never occurs. -/
theorem claim_C6_synthesizer_draft_bound (draft : Nat → String)
    (selfCheck : String → Bool) :
    (synthesize draft selfCheck).draftCalls ≤ 2
    ∧ (synthesize draft selfCheck).draftCalls
        = (if selfCheck (draft 0) then 1 else 2)
    ∧ (synthesize draft selfCheck).answer
        = (if selfCheck (draft 0) then draft 0 else draft 1) := by
  unfold synthesize
  by_cases h : selfCheck (draft 0) <;> simp [h]

/-- Claim C7: against any fixed current date D (a day number), the
Planner resolution of "yesterday" is exactly D minus one, and the
resolution of "last Tuesday" is a Tuesday (residue 2 modulo 7) strictly
before D. -/
theorem claim_C7_relative_date_resolution (D : Int) :
    resolveYesterday D = D - 1
    ∧ resolveLastTuesday D % 7 = tuesdayResidue
    ∧ resolveLastTuesday D < D := by
  refine ⟨rfl, ?_, ?_⟩ <;>
    · unfold resolveLastTuesday tuesdayResidue
      split <;> omega

/-- Claim C8: whenever the input box submit path sends a value (whether
reached by form submit or by a plain Enter, which routes to the same
handler), the trimmed input was nonempty and the box was enabled, the
value sent is exactly the trimmed input, and the field is reset to the
empty string. -/
theorem claim_C8_input_submit (input : String) (disabled : Bool) (s : String)
    (h : (handleSubmit input disabled).1 = some s) :
    s = trimString input ∧ trimString input ≠ "" ∧ disabled = false
    ∧ (handleSubmit input disabled).2 = ""
    ∧ handleKeyPress "Enter" false input disabled = handleSubmit input disabled := by
  unfold handleSubmit at h
  by_cases hc : trimString input ≠ "" ∧ disabled = false
  · rw [if_pos hc] at h
    have hs : s = trimString input := (Option.some.inj h).symm
    refine ⟨hs, hc.1, hc.2, ?_, ?_⟩
    · unfold handleSubmit
      rw [if_pos hc]
    · unfold handleKeyPress
      rw [if_pos ⟨rfl, rfl⟩]
  · rw [if_neg hc] at h
    simp at h

/-- Witness for claim C8: the input "  hi " with the box enabled sends
exactly "hi" and clears the field. -/
theorem claim_C8_input_submit_witness :
    "hi" = trimString "  hi " ∧ trimString "  hi " ≠ "" ∧ false = false
    ∧ (handleSubmit "  hi " false).2 = ""
    ∧ handleKeyPress "Enter" false "  hi " false = handleSubmit "  hi " false :=
  claim_C8_input_submit "  hi " false "hi" (by decide)

/-- Claim C9: the reconciliation effect keeps the selected focus-source
id either null or equal to the id of a loaded source — whenever the
referenced (nonzero-id) source is absent from the loaded list the
selection is reset to null — and deleting the selected source never
leaves its id selected. -/
theorem claim_C9_selection_invariant (sources : List SourceInfo)
    (sel : Option Int) (h : sel ≠ some 0) :
    (reconcileSelection sources sel = none
      ∨ ∃ s ∈ sources, reconcileSelection sources sel = some s.id)
    ∧ (∀ sid, sel = some sid → (∀ s ∈ sources, s.id ≠ sid) →
        reconcileSelection sources sel = none)
    ∧ (∀ d, selectionAfterDelete sel d ≠ some d) := by
  refine ⟨?_, ?_, ?_⟩
  · cases sel with
    | none => exact Or.inl rfl
    | some sid =>
        have hsid : sid ≠ 0 := fun h0 => h (by rw [h0])
        by_cases hmem : sources.any (fun s => s.id == sid)
        · rcases List.any_eq_true.mp hmem with ⟨s, hs, hid⟩
          refine Or.inr ⟨s, hs, ?_⟩
          have hval : reconcileSelection sources (some sid) = some sid := by
            simp only [reconcileSelection]
            rw [if_neg (fun hcon => hcon.2 hmem)]
          rw [hval, beq_iff_eq.mp hid]
        · refine Or.inl ?_
          simp only [reconcileSelection]
          rw [if_pos ⟨hsid, hmem⟩]
  · intro sid hsel hall
    subst hsel
    have hsid : sid ≠ 0 := fun h0 => h (by rw [h0])
    have hnone : ¬ sources.any (fun s => s.id == sid) = true := by
      intro hany
      rcases List.any_eq_true.mp hany with ⟨s, hs, hid⟩
      exact hall s hs (beq_iff_eq.mp hid)
    simp only [reconcileSelection]
    rw [if_pos ⟨hsid, hnone⟩]
  · intro d
    unfold selectionAfterDelete
    by_cases hd : sel = some d
    · rw [if_pos hd]
      exact fun hcon => Option.noConfusion hcon
    · rw [if_neg hd]
      exact hd

/-- Witness for claim C9 at a concrete loaded list (one source, id 1) and
a selection (id 2) that is absent from it. -/
theorem claim_C9_selection_invariant_witness :
    (some 2 : Option Int) ≠ some 0
    ∧ ((reconcileSelection [⟨1, "Doc", "document"⟩] (some 2) = none
        ∨ ∃ s ∈ [(⟨1, "Doc", "document"⟩ : SourceInfo)],
            reconcileSelection [⟨1, "Doc", "document"⟩] (some 2) = some s.id)
      ∧ (∀ sid, (some 2 : Option Int) = some sid →
          (∀ s ∈ [(⟨1, "Doc", "document"⟩ : SourceInfo)], s.id ≠ sid) →
          reconcileSelection [⟨1, "Doc", "document"⟩] (some 2) = none)
      ∧ (∀ d, selectionAfterDelete (some 2) d ≠ some d)) :=
  ⟨by decide, claim_C9_selection_invariant [⟨1, "Doc", "document"⟩] (some 2) (by decide)⟩

/-- The audio extension list and the document extension list of the
upload panel share no entry. -/
theorem audio_document_extensions_disjoint :
    ∀ x ∈ audioExtensions, x ∉ documentExtensions := by decide

/-- Claim C10: one chosen file triggers at most one ingestion call,
picked by the lowercased extension — the audio extensions go to audio
ingestion, the document extensions to document ingestion, any other
extension produces no call and an unsupported-type message — and the
upload-complete callback fires only when the one ingestion call
succeeded. -/
theorem claim_C10_upload_routing (name : String)
    (ingest : IngestEndpoint → Except String IngestResponse) :
    (handleFileUpload name ingest).calls.length ≤ 1
    ∧ (fileExtension name ∈ audioExtensions →
        (handleFileUpload name ingest).calls = [IngestEndpoint.audio])
    ∧ (fileExtension name ∈ documentExtensions →
        (handleFileUpload name ingest).calls = [IngestEndpoint.document])
    ∧ (fileExtension name ∉ audioExtensions →
        fileExtension name ∉ documentExtensions →
        (handleFileUpload name ingest).calls = []
        ∧ (handleFileUpload name ingest).message
            = "❌ Unsupported file type: " ++ fileExtension name)
    ∧ ((handleFileUpload name ingest).completeFired = true →
        ∃ ep r, (handleFileUpload name ingest).calls = [ep]
          ∧ ingest ep = Except.ok r) := by
  unfold handleFileUpload
  by_cases ha : audioExtensions.contains (fileExtension name)
  · have ha' : fileExtension name ∈ audioExtensions := by simpa using ha
    rw [if_pos ha]
    cases hcall : ingest IngestEndpoint.audio with
    | ok r =>
        exact ⟨by simp, fun _ => rfl,
          fun hdm => absurd hdm (audio_document_extensions_disjoint _ ha'),
          fun hna => absurd ha' hna, fun _ => ⟨.audio, r, rfl, hcall⟩⟩
    | error err =>
        exact ⟨by simp, fun _ => rfl,
          fun hdm => absurd hdm (audio_document_extensions_disjoint _ ha'),
          fun hna => absurd ha' hna, fun hfired => absurd hfired (by simp)⟩
  · have ha' : fileExtension name ∉ audioExtensions := by simpa using ha
    rw [if_neg ha]
    by_cases hd : documentExtensions.contains (fileExtension name)
    · have hd' : fileExtension name ∈ documentExtensions := by simpa using hd
      rw [if_pos hd]
      cases hcall : ingest IngestEndpoint.document with
      | ok r =>
          exact ⟨by simp, fun hmem => absurd hmem ha', fun _ => rfl,
            fun _ hnd => absurd hd' hnd, fun _ => ⟨.document, r, rfl, hcall⟩⟩
      | error err =>
          exact ⟨by simp, fun hmem => absurd hmem ha', fun _ => rfl,
            fun _ hnd => absurd hd' hnd, fun hfired => absurd hfired (by simp)⟩
    · have hd' : fileExtension name ∉ documentExtensions := by simpa using hd
      rw [if_neg hd]
      exact ⟨by simp, fun hmem => absurd hmem ha', fun hmem => absurd hmem hd',
        fun _ _ => ⟨rfl, rfl⟩, fun hfired => absurd hfired (by simp)⟩

end TimelineThinker
